import Mathlib

/-!
Verification of the Heka framed-record decoder of `python_moztelemetry`
(`moztelemetry/heka/message_parser.py` and `moztelemetry/heka_message_parser.py`).

The byte stream is modelled as a `List Nat` of byte values; the repository's
`BacktrackableFile` stream wrapper is modelled as explicit state
(`buf`/`pos`/`rest`).  Python exceptions become an explicit error type
(`PyErr`), and the lazy generator `unpack` becomes a fuel-indexed loop
producing the list of yielded `(record, cumulative_bytes)` pairs together
with a termination status.

External collaborators that are not part of the repository's sources (the
generated protobuf classes `Header`/`Message` from `moztelemetry/heka/message.py`,
the snappy library, `ujson`, Python's `float` and UTF-8 decoding) are modelled
from the specification, either as concrete wire-format decoders (`Header`) or
as abstract parameters bundled in `Ext`.
-/

set_option maxRecDepth 4096

namespace Moz

/-- Kinds of Python exceptions that the decoder paths can raise.
`decodeError` stands for `google.protobuf.message.DecodeError`, which
`unpack` singles out with `type(e) == DecodeError` for the backtrack path. -/
inductive PyErr where
  | valueError (msg : String)
  | decodeError
  | indexError
  | typeError
  | attributeError
  | keyError
deriving DecidableEq

/-- Placeholder for Python float values: the claims under verification never
inspect a double, so only its identity matters, not its arithmetic. -/
structure DoubleVal where
  bits : Nat
deriving DecidableEq

/-- JSON values as returned by `ujson.loads`. -/
inductive JValue where
  | jnull
  | jbool (b : Bool)
  | jint (n : Int)
  | jdouble (d : DoubleVal)
  | jstr (s : String)
  | jarr (xs : List JValue)
  | jobj (kvs : List (String × JValue))

/-- A Python scalar value as held by a protobuf field's repeated value list:
the argument type of `_lazyjson` (which raises `ValueError` on non-strings). -/
inductive PyScalar where
  | s (str : String)
  | i (n : Int)
  | d (dv : DoubleVal)
  | b (bv : Bool)
deriving DecidableEq

/-- A value inside a decoded record.  Python mixes plain parsed-JSON values,
nested dicts created by `_add_field`, and instances of `_lazyjson`'s wrapper
class in the same dict, so a single type covers them all.  `vlazy` carries the
wrapper's raw string, whether its default was `{}` (true) or `[]` (false), the
cached parse result (`WrapperType.__cache__`), and a counter of how many times
`json.loads(content)` has been executed for it. -/
inductive RVal where
  | vnull
  | vbool (b : Bool)
  | vint (n : Int)
  | vdouble (d : DoubleVal)
  | vstr (s : String)
  | varr (xs : List RVal)
  | vdict (kvs : List (String × RVal))
  | vlazy (content : String) (isMap : Bool) (cache : Option RVal) (parseCount : Nat)

/-- Modelled from the spec: one typed key/value side-field of the protobuf
`Message` schema (§6): "fields: repeated \x7b name: string, value_type:
enum\x7bSTRING=0,BYTES=1,INTEGER=2,DOUBLE=3,BOOL=4\x7d, value_string/value_bytes/
value_integer/value_double/value_bool: repeated <type> \x7d".  The generated
class lives in `moztelemetry/heka/message.py`, which is absent from the
sources. -/
structure Field where
  name : String
  value_type : Nat
  value_string : List String
  value_bytes : List (List Nat)
  value_integer : List Int
  value_double : List DoubleVal
  value_bool : List Bool
deriving DecidableEq

/-- Modelled from the spec: the protobuf `Message` schema (§6):
"\x7b timestamp: int64, type: string, hostname: string, payload: string,
fields: repeated ... \x7d" (from the absent `moztelemetry/heka/message.py`). -/
structure Message where
  timestamp : Int
  type : String
  hostname : String
  payload : String
  fields : List Field
deriving DecidableEq

/-- Modelled from the spec: the protobuf `Header` schema (§6): "fixed protobuf
schema with a single relevant field: `message_length` (default 0)" (from the
absent `moztelemetry/heka/message.py`). -/
structure Header where
  message_length : Nat
deriving DecidableEq

/-- External collaborators that are not code of this repository, as abstract
parameters: `Message.ParseFromString` (generated protobuf code, absent from
the sources), `snappy.decompress` (returns `none` where the library raises),
`ujson.loads`, `bytes.decode('utf-8')` and Python's `float`. -/
structure Ext where
  parseMessage : List Nat → Option Message
  snappyDecompress : List Nat → Option (List Nat)
  jsonLoads : String → Option JValue
  utf8Decode : List Nat → Option String
  floatOfString : String → Option DoubleVal

mutual

/-- Embed a parsed JSON value into the record-value universe. -/
def jToR : JValue → RVal
  | .jnull => .vnull
  | .jbool b => .vbool b
  | .jint n => .vint n
  | .jdouble d => .vdouble d
  | .jstr s => .vstr s
  | .jarr xs => .varr (jToRList xs)
  | .jobj kvs => .vdict (jToRPairs kvs)

/-- `jToR` mapped over a list. -/
def jToRList : List JValue → List RVal
  | [] => []
  | x :: xs => jToR x :: jToRList xs

/-- `jToR` mapped over the entries of a JSON object. -/
def jToRPairs : List (String × JValue) → List (String × RVal)
  | [] => []
  | (k, v) :: kvs => (k, jToR v) :: jToRPairs kvs

end

/-- Python `dict` lookup on the association-list model. -/
def dictGet (d : List (String × RVal)) (k : String) : Option RVal :=
  match d with
  | [] => none
  | (k', v) :: rest => if k' = k then some v else dictGet rest k

/-- Python `dict` item assignment: replace the binding in place, or append. -/
def dictSet (d : List (String × RVal)) (k : String) (v : RVal) :
    List (String × RVal) :=
  match d with
  | [] => [(k, v)]
  | (k', v') :: rest =>
    if k' = k then (k, v) :: rest else (k', v') :: dictSet rest k v

/-- Python `dict.update`: fold the new bindings over the dict. -/
def dictUpdate (d : List (String × RVal)) (kvs : List (String × RVal)) :
    List (String × RVal) :=
  kvs.foldl (fun acc kv => dictSet acc kv.1 kv.2) d

/-- Helper for `pySplitDot`: accumulate the current segment (reversed). -/
def splitDotAux : List Char → List Char → List String
  | [], acc => [String.mk acc.reverse]
  | c :: cs, acc =>
    if c = '.' then String.mk acc.reverse :: splitDotAux cs []
    else splitDotAux cs (c :: acc)

/-- Python `str.split('.')`: always returns at least one segment, keeps empty
segments (`"".split('.') == ['']`, `"a..b".split('.') == ['a','','b']`). -/
def pySplitDot (s : String) : List String :=
  splitDotAux s.toList []

/-- Helper for `pyInt?`: read a nonempty all-digit run as a number. -/
def digitsValAux : List Char → Nat → Option Nat
  | [], acc => some acc
  | c :: cs, acc =>
    if c.isDigit then digitsValAux cs (acc * 10 + (c.toNat - 48)) else none

/-- Python `int(str)`: optional surrounding spaces, optional sign, then a
nonempty digit run; `none` where Python raises `ValueError`. -/
def pyInt? (s : String) : Option Int :=
  let cs := ((s.toList.dropWhile (· = ' ')).reverse.dropWhile (· = ' ')).reverse
  match cs with
  | [] => none
  | '-' :: ds =>
    if ds = [] then none else (digitsValAux ds 0).map (fun n => -(n : Int))
  | '+' :: ds =>
    if ds = [] then none else (digitsValAux ds 0).map (fun n => (n : Int))
  | ds => (digitsValAux ds 0).map (fun n => (n : Int))

/-- The numeric branch of `_lazyjson`:
`float(content) if '.' in content or 'e' in content.lower() else int(content)`,
with the surrounding bare `except` returning the original string. -/
def pyNumParse (ext : Ext) (str : String) : RVal :=
  if str.toList.contains '.' ∨ str.toList.any (fun c => c.toLower = 'e') then
    match ext.floatOfString str with
    | some d => .vdouble d
    | none => .vstr str
  else
    match pyInt? str with
    | some n => .vint n
    | none => .vstr str

/-- Translation of `_lazyjson` (identical in both source files): non-strings
raise `ValueError`; strings starting with a brace or bracket become an
unparsed lazy wrapper (cache empty, no parse executed yet); anything else is
eagerly parsed as int/float with fallback to the raw string. -/
def lazyjson (ext : Ext) (content : PyScalar) : Except PyErr RVal :=
  match content with
  | .s str =>
    match str.toList with
    | c :: _ =>
      if c = Char.ofNat 123 then .ok (.vlazy str true none 0)
      else if c = '[' then .ok (.vlazy str false none 0)
      else .ok (pyNumParse ext str)
    | [] => .ok (pyNumParse ext str)
  | _ => .error (.valueError "Argument must be a string.")

/-- One read access to a lazy wrapper: every wrapped method first materializes
`WrapperType.__cache__ = json.loads(content)` if absent, then delegates to the
cached value.  A failing `json.loads` executes but caches nothing (the
`setattr` never runs), so the count still increments. -/
def lazyAccess (ext : Ext) : RVal → Except PyErr RVal × RVal
  | .vlazy c m none k =>
    match ext.jsonLoads c with
    | some j => (.ok (jToR j), .vlazy c m (some (jToR j)) (k + 1))
    | none => (.error (.valueError "Expected object or value"), .vlazy c m none (k + 1))
  | .vlazy c m (some r) k => (.ok r, .vlazy c m (some r) k)
  | v => (.ok v, v)

/-- Iterate `n` read accesses, collecting results and the final state. -/
def lazyAccessN (ext : Ext) : Nat → RVal → List (Except PyErr RVal) × RVal
  | 0, v => ([], v)
  | n + 1, v =>
    let r := lazyAccess ext v
    let rs := lazyAccessN ext n r.2
    (r.1 :: rs.1, rs.2)

/-- How many times `json.loads(content)` has executed for this value. -/
def lazyCount : RVal → Nat
  | .vlazy _ _ _ k => k
  | _ => 0

/-- Translation of `_add_field` (identical in both source files).  The Python
code mutates nested dicts in place; here the updated dict is rebuilt.  When an
existing value on the path is a lazy wrapper, Python's wrapped dict methods
delegate to the (materialized) cache; a non-dict value on the path makes the
recursive `container.get`/item assignment raise (TypeError/AttributeError,
both modelled as `typeError`). -/
def add_field (ext : Ext) (container : List (String × RVal))
    (keys : List String) (value : List PyScalar) :
    Except PyErr (List (String × RVal)) :=
  match keys with
  | [] => .error .indexError
  | [k] =>
    let blob : PyScalar := match value with | [] => .s "" | x :: _ => x
    match lazyjson ext blob with
    | .ok v => .ok (dictSet container k v)
    | .error e => .error e
  | k :: rest =>
    match dictGet container k with
    | none =>
      match add_field ext [] rest value with
      | .ok d => .ok (dictSet container k (.vdict d))
      | .error e => .error e
    | some (.vdict d0) =>
      match add_field ext d0 rest value with
      | .ok d => .ok (dictSet container k (.vdict d))
      | .error e => .error e
    | some (.vlazy c m cache k0) =>
      let forced : Except PyErr (RVal × Nat) :=
        match cache with
        | some r => .ok (r, k0)
        | none =>
          match ext.jsonLoads c with
          | some j => .ok (jToR j, k0 + 1)
          | none => .error (.valueError "Expected object or value")
      match forced with
      | .error e => .error e
      | .ok (.vdict d0, k1) =>
        match add_field ext d0 rest value with
        | .ok d => .ok (dictSet container k (.vlazy c m (some (.vdict d)) k1))
        | .error e => .error e
      | .ok (_, _) => .error .typeError
    | some _ => .error .typeError

/-- The typed value list selected by the `value_type` dispatch in
`_parse_heka_record` (`value = field.value_string` overridden for types
2/3/4; type 1 never reaches this point). -/
def fieldValues (f : Field) : List PyScalar :=
  if f.value_type = 2 then f.value_integer.map PyScalar.i
  else if f.value_type = 3 then f.value_double.map PyScalar.d
  else if f.value_type = 4 then f.value_bool.map PyScalar.b
  else f.value_string.map PyScalar.s

/-- The scalar stored for a single-segment (meta) field. -/
def scalarToR : PyScalar → RVal
  | .s s => .vstr s
  | .i n => .vint n
  | .d d => .vdouble d
  | .b b => .vbool b

/-- Shared tail of the per-field loop body of `_parse_heka_record` for
non-bytes fields: single-segment names go under `result["meta"]`, dotted
names to `_add_field`. -/
def fieldInto (ext : Ext) (result : List (String × RVal)) (f : Field) :
    Except PyErr (List (String × RVal)) :=
  let name := pySplitDot f.name
  let value := fieldValues f
  if name.length = 1 then
    let v : RVal := match value with | [] => .vstr "" | x :: _ => scalarToR x
    match dictGet result "meta" with
    | some (.vdict m) =>
      .ok (dictSet result "meta" (.vdict (dictSet m (name.headD "") v)))
    | some _ => .error .typeError
    | none => .error .keyError
  else add_field ext result name value

namespace Heka

/-- Per-field loop body of `_parse_heka_record` in
`moztelemetry/heka/message_parser.py`: bytes-typed fields (value_type 1) are
skipped with `continue`, everything else is projected. -/
def hekaField (ext : Ext) (result : List (String × RVal)) (f : Field) :
    Except PyErr (List (String × RVal)) :=
  if f.value_type = 1 then .ok result
  else fieldInto ext result f

end Heka

namespace HekaTop

/-- Per-field loop body of `_parse_heka_record` in
`moztelemetry/heka_message_parser.py`: for bytes-typed fields whose name's
first dot-segment is `submission`, `value_bytes[0]` is UTF-8-decoded,
JSON-parsed and `dict.update`d into the result; other bytes fields are
skipped. -/
def hekaField (ext : Ext) (result : List (String × RVal)) (f : Field) :
    Except PyErr (List (String × RVal)) :=
  if f.value_type = 1 then
    if (pySplitDot f.name).headD "" = "submission" then
      match f.value_bytes with
      | [] => .error .indexError
      | b :: _ =>
        match ext.utf8Decode b with
        | none => .error (.valueError "unicode decode error")
        | some s =>
          match ext.jsonLoads s with
          | some (.jobj kvs) => .ok (dictUpdate result (jToRPairs kvs))
          | some _ => .error .typeError
          | none => .error (.valueError "Expected object or value")
    else .ok result
  else fieldInto ext result f

end HekaTop

/-- The record wrapper returned by `read_one_record`
(`UnpackedRecord(raw, header, message=None, error=None)`). -/
structure UnpackedRecord where
  raw : List Nat
  header : Header
  message : Option Message
  error : Option String
deriving DecidableEq

/-- The payload step of `_parse_heka_record` (identical in both source
files): a non-empty payload is parsed as JSON (`ujson` raises `ValueError` on
malformed input; a non-object result makes the later dict operations raise),
an empty payload starts from an empty dict. -/
def payloadBase (ext : Ext) (payload : String) :
    Except PyErr (List (String × RVal)) :=
  if payload ≠ "" then
    match ext.jsonLoads payload with
    | some (.jobj kvs) => .ok (jToRPairs kvs)
    | some _ => .error .typeError
    | none => .error (.valueError "Expected object or value")
  else .ok []

namespace Heka

/-- Translation of `_parse_heka_record` in
`moztelemetry/heka/message_parser.py`: parse the payload JSON (empty payload
gives an empty dict), overwrite `result["meta"]` with Timestamp/Type/Hostname,
then project each side-field.  `record.message is None` (an error frame)
raises `AttributeError`. -/
def parse_heka_record (ext : Ext) (record : UnpackedRecord) :
    Except PyErr (List (String × RVal)) :=
  match record.message with
  | none => .error .attributeError
  | some msg =>
    match payloadBase ext msg.payload with
    | .error e => .error e
    | .ok r0 =>
      msg.fields.foldlM (fun acc f => hekaField ext acc f)
        (dictSet r0 "meta" (.vdict
          [("Timestamp", .vint msg.timestamp),
           ("Type", .vstr msg.type),
           ("Hostname", .vstr msg.hostname)]))

end Heka

namespace HekaTop

/-- Translation of `_parse_heka_record` in
`moztelemetry/heka_message_parser.py`: identical to the `heka/` variant except
for the `submission` special case in its per-field body. -/
def parse_heka_record (ext : Ext) (record : UnpackedRecord) :
    Except PyErr (List (String × RVal)) :=
  match record.message with
  | none => .error .attributeError
  | some msg =>
    match payloadBase ext msg.payload with
    | .error e => .error e
    | .ok r0 =>
      msg.fields.foldlM (fun acc f => hekaField ext acc f)
        (dictSet r0 "meta" (.vdict
          [("Timestamp", .vint msg.timestamp),
           ("Type", .vstr msg.type),
           ("Hostname", .vstr msg.hostname)]))

end HekaTop

/-- Protobuf base-128 varint decoding (least-significant 7-bit group first),
returning the value and the unconsumed remainder. -/
def varintDecode : List Nat → Option (Nat × List Nat)
  | [] => none
  | b :: bs =>
    if b < 128 then some (b, bs)
    else
      match varintDecode bs with
      | some (v, r) => some (b % 128 + 128 * v, r)
      | none => none

/-- Helper for `varintEncode`: fuel-indexed so that it is structurally
recursive (fuel `n` always suffices for value `n`). -/
def varintEncodeAux : Nat → Nat → List Nat
  | 0, n => [n % 128]
  | fuel + 1, n =>
    if n < 128 then [n] else (n % 128 + 128) :: varintEncodeAux fuel (n / 128)

/-- Protobuf base-128 varint encoding. -/
def varintEncode (n : Nat) : List Nat :=
  varintEncodeAux n n

/-- Modelled from the spec: `Header.ParseFromString` of the generated protobuf
code in the absent `moztelemetry/heka/message.py`.  Spec §6: "HEADER — fixed
protobuf schema with a single relevant field: `message_length` (default 0)".
An empty blob decodes to the default; a field-1 varint (key byte 0x08) sets
`message_length`; any other shape is a `DecodeError` (`none`). -/
def Header.parseFromString (bs : List Nat) : Option Header :=
  match bs with
  | [] => some ⟨0⟩
  | 8 :: r =>
    match varintDecode r with
    | some (v, []) => some ⟨v⟩
    | _ => none
  | _ => none

/-- The state of a `BacktrackableFile`: `buf` is the full contents of the
internal `StringIO` buffer, `pos` its read position, `rest` the unread part of
the underlying stream.  A plain stream (e.g. `StringIO`) is the special case
`buf = [], pos = 0`: reads then behave identically. -/
structure BacktrackableFile where
  buf : List Nat
  pos : Nat
  rest : List Nat
deriving DecidableEq

/-- `BacktrackableFile(stream)`: fresh empty buffer. -/
def BacktrackableFile.mk0 (stream : List Nat) : BacktrackableFile :=
  ⟨[], 0, stream⟩

/-- Translation of `BacktrackableFile.read`: serve from the buffer first, then
pull the shortfall from the stream, appending it to the buffer.  Short reads
happen only at end of stream, exactly as for Python file objects. -/
def BacktrackableFile.read (f : BacktrackableFile) (size : Nat) :
    List Nat × BacktrackableFile :=
  let bufferData := (f.buf.drop f.pos).take size
  let toRead := size - bufferData.length
  if toRead = 0 then
    (bufferData, ⟨f.buf, f.pos + bufferData.length, f.rest⟩)
  else
    let streamData := f.rest.take toRead
    (bufferData ++ streamData,
      ⟨f.buf ++ streamData, f.buf.length + streamData.length,
        f.rest.drop toRead⟩)

/-- Bytes still readable from a file state: the measure that bounds every
reading loop. -/
def bfSize (f : BacktrackableFile) : Nat :=
  (f.buf.length - f.pos) + f.rest.length

/-- Python `buf.find(chr(0x1e), i)` restricted to the suffix `l = buf[i:]`:
index (in the original string) of the first record separator. -/
def findSep : List Nat → Nat → Option Nat
  | [], _ => none
  | b :: bs, i => if b = 0x1e then some i else findSep bs (i + 1)

/-- Translation of `BacktrackableFile.backtrack`: discard buffered bytes up to
the first record separator strictly after the buffer start (the separator that
opened the failed record sits at index 0) and rewind to replay from there; if
none is found the buffer is simply emptied. -/
def BacktrackableFile.backtrack (f : BacktrackableFile) : BacktrackableFile :=
  match findSep (f.buf.drop 1) 1 with
  | some i => ⟨f.buf.drop i, 0, f.rest⟩
  | none => ⟨[], 0, f.rest⟩

/-- Helper for `read_until_next`, fuel-indexed so that it is structurally
recursive; `read_until_next` supplies fuel `bfSize f + 1`, which always
suffices since every non-final iteration consumes one readable byte. -/
def readUntilNextAux (separator : Nat) :
    Nat → BacktrackableFile → Nat × Bool × BacktrackableFile
  | 0, f => (0, true, f)
  | fuel + 1, f =>
    match f.read 1 with
    | ([], f') => (0, true, f')
    | (c :: _, f') =>
      if c = separator then (0, false, f')
      else
        let r := readUntilNextAux separator fuel f'
        (r.1 + 1, r.2.1, r.2.2)

/-- Translation of `read_until_next`: scan byte-by-byte until the separator,
returning `(bytes_skipped, eof_reached)` plus the advanced file state. -/
def read_until_next (f : BacktrackableFile) (separator : Nat) :
    Nat × Bool × BacktrackableFile :=
  readUntilNextAux separator (bfSize f + 1) f

/-- The message-decode step of `read_one_record` (with `raw=False`): if
`try_snappy`, attempt `Message.ParseFromString(snappy.decompress(message_raw))`
with a bare `except` (so both a decompression failure and a parse failure of
the decompressed bytes fall through), then parse the raw body bytes; `none`
means `DecodeError` propagates. -/
def decodeBody (ext : Ext) (try_snappy : Bool) (message_raw : List Nat) :
    Option Message :=
  if try_snappy then
    match ext.snappyDecompress message_raw with
    | some dec =>
      match ext.parseMessage dec with
      | some m => some m
      | none => ext.parseMessage message_raw
    | none => ext.parseMessage message_raw
  else ext.parseMessage message_raw

/-- The unit-separator mismatch message
(`"Unexpected unit separator character at offset {}: {}"`). -/
def usepError (offset b : Nat) : String :=
  "Unexpected unit separator character at offset " ++ toString offset ++
    ": " ++ toString b

/-- Outcome of one `read_one_record` call: a normal return of
`(record_or_None, total_bytes)` or a raised exception, in both cases with the
advanced file state. -/
inductive ReadOutcome where
  | ok (record : Option UnpackedRecord) (size : Nat) (f : BacktrackableFile)
  | exn (e : PyErr) (f : BacktrackableFile)
deriving DecidableEq

/-- Translation of `read_one_record`: scan to the record separator (EOF ends
the stream; skipped garbage raises `ValueError` in strict mode), read the
1-byte header length, the header (an empty read — end of stream, or a
declared length of 0 — returns `None` as end of stream), parse the header
(`DecodeError` on failure), require the 0x1F unit separator (`ord('')` raises
`IndexError` at end of stream; a mismatch raises in strict mode and otherwise
returns an error-carrying record without a message), then read
`header.message_length` body bytes and decode them unless `raw`.  Declared
lengths — not actually-read counts — are added to `total_bytes`, as in the
source. -/
def read_one_record (ext : Ext) (f0 : BacktrackableFile)
    (raw verbose strict try_snappy : Bool) : ReadOutcome :=
  match read_until_next f0 0x1e with
  | (skipped, eof, f1) =>
    if eof then .ok none skipped f1
    else if 0 < skipped ∧ strict then
      .exn (.valueError "Unexpected character(s) at the start of record") f1
    else
      match f1.read 1 with
      | (hlr, f2) =>
        if hlr = [] then .ok none (skipped + 1) f2
        else
          match f2.read (hlr.headD 0) with
          | (header_raw, f3) =>
            if header_raw = [] then .ok none (skipped + 1 + 1) f3
            else
              match Header.parseFromString header_raw with
              | none => .exn .decodeError f3
              | some header =>
                match f3.read 1 with
                | ([], f4) => .exn .indexError f4
                | (c :: us, f4) =>
                  if c ≠ 0x1f then
                    if strict then
                      .exn (.valueError
                        (usepError (skipped + 1 + 1 + hlr.headD 0 + 1) c)) f4
                    else
                      .ok (some ⟨0x1e :: hlr ++ header_raw, header, none,
                        some (usepError (skipped + 1 + 1 + hlr.headD 0 + 1) c)⟩)
                        (skipped + 1 + 1 + hlr.headD 0 + 1) f4
                  else
                    match f4.read header.message_length with
                    | (message_raw, f5) =>
                      let raw_record :=
                        0x1e :: hlr ++ header_raw ++ (c :: us) ++ message_raw
                      if raw then
                        .ok (some ⟨raw_record, header, none, none⟩)
                          (skipped + 1 + 1 + hlr.headD 0 + 1 + header.message_length) f5
                      else
                        match decodeBody ext try_snappy message_raw with
                        | some m =>
                          .ok (some ⟨raw_record, header, some m, none⟩)
                            (skipped + 1 + 1 + hlr.headD 0 + 1 + header.message_length) f5
                        | none => .exn .decodeError f5

/-- How the modelled `unpack` loop ended: normal end of stream, a re-raised
exception (strict mode), or fuel exhaustion (never reached by the theorems,
which supply sufficient fuel). -/
inductive UnpackStatus where
  | finished
  | raised (e : PyErr)
  | fuelOut
deriving DecidableEq

/-- Translation of the `unpack` generator loop, fuel-indexed: each iteration
calls `read_one_record`; an exception re-raises in strict mode, triggers
`fin.backtrack()` and a retry when `backtrack` is set and the exception is
exactly a `DecodeError`, and otherwise leaves `r = None` so the loop breaks —
ending the lazy sequence.  A `None` record breaks (end of stream); any other
record — error-carrying ones included — is counted and yielded with the
updated cumulative byte total. -/
def unpackAux (ext : Ext) (raw verbose strict backtrack try_snappy : Bool) :
    Nat → BacktrackableFile → Nat →
    List (UnpackedRecord × Nat) × UnpackStatus
  | 0, _, _ => ([], .fuelOut)
  | fuel + 1, f, total_bytes =>
    match read_one_record ext f raw verbose strict try_snappy with
    | .exn e f' =>
      if strict then ([], .raised e)
      else if backtrack ∧ e = .decodeError then
        unpackAux ext raw verbose strict backtrack try_snappy fuel
          f'.backtrack total_bytes
      else ([], .finished)
    | .ok none _ _ => ([], .finished)
    | .ok (some r) size f' =>
      let total' := total_bytes + size
      let out := unpackAux ext raw verbose strict backtrack try_snappy fuel
        f' total'
      ((r, total') :: out.1, out.2)

/-- `unpack(fin, ...)` on a file state, starting the counters at zero. -/
def unpack (ext : Ext) (fuel : Nat) (f : BacktrackableFile)
    (raw verbose strict backtrack try_snappy : Bool) :
    List (UnpackedRecord × Nat) × UnpackStatus :=
  unpackAux ext raw verbose strict backtrack try_snappy fuel f 0

/-- A header blob that explicitly declares a message length `n`:
protobuf field 1 (key byte 0x08) followed by the varint for `n`. -/
def headerFor (n : Nat) : List Nat :=
  8 :: varintEncode n

/-- The wire bytes of one well-formed frame around `body` (§6):
`SEP(0x1E) HLEN HEADER USEP(0x1F) BODY`, with the header declaring exactly
`body.length`. -/
def frameBytes (body : List Nat) : List Nat :=
  0x1e :: (headerFor body.length).length :: (headerFor body.length ++ 0x1f :: body)

/-- The concatenation of the frames for a list of bodies. -/
def streamOfBodies : List (List Nat) → List Nat
  | [] => []
  | b :: bs => frameBytes b ++ streamOfBodies bs

/-- A file state whose buffer has been fully consumed: the normal shape
between records when no backtrack has occurred. -/
def clean (buf rest : List Nat) : BacktrackableFile :=
  ⟨buf, buf.length, rest⟩

/-- The `(record, cumulative_bytes)` pairs `unpack` yields for a well-formed
stream of frames, starting from a given byte total. -/
def expectedOut (ext : Ext) (ts : Bool) :
    List (List Nat) → Nat → List (UnpackedRecord × Nat)
  | [], _ => []
  | b :: bs, total =>
    (⟨frameBytes b, ⟨b.length⟩, decodeBody ext ts b, none⟩,
      total + (frameBytes b).length)
      :: expectedOut ext ts bs (total + (frameBytes b).length)

/-- A fixed decoded message used by the concrete witnesses. -/
def msgTest : Message :=
  ⟨0, "t", "h", "", []⟩

/-- A concrete instantiation of the external collaborators for the witnesses:
body `[7]` is the only parseable message, `[9]` is its snappy-compressed
form, and `jsonLoads`/`utf8Decode` know the two JSON blobs the witnesses
use. -/
def extTest : Ext where
  parseMessage := fun bs => if bs = [7] then some msgTest else none
  snappyDecompress := fun bs => if bs = [9] then some [7] else none
  jsonLoads := fun s =>
    if s = "\x7b\x22x\x22:1\x7d" then some (.jobj [("x", .jint 1)])
    else if s = "\x7b\x22k\x22:1\x7d" then some (.jobj [("k", .jint 1)])
    else none
  utf8Decode := fun bs => if bs = [1, 2] then some "\x7b\x22k\x22:1\x7d" else none
  floatOfString := fun _ => none

/-- Nested dict lookup along a key path (proof-side observation helper). -/
def dig (d : List (String × RVal)) : List String → Option RVal
  | [] => none
  | [k] => dictGet d k
  | k :: ks =>
    match dictGet d k with
    | some (.vdict d') => dig d' ks
    | _ => none

section Lemmas

theorem take_append_len {α : Type} (l₁ l₂ : List α) :
    (l₁ ++ l₂).take l₁.length = l₁ := by
  induction l₁ with
  | nil => simp
  | cons a l ih => simp [ih]

theorem drop_append_len {α : Type} (l₁ l₂ : List α) :
    (l₁ ++ l₂).drop l₁.length = l₂ := by
  induction l₁ with
  | nil => simp
  | cons a l ih => simp [ih]

/-- Reading from a clean state serves a prefix of `rest` and appends it to the
buffer, leaving a clean state. -/
theorem read_clean (buf rest : List Nat) (n : Nat) :
    (clean buf rest).read n =
      (rest.take n, clean (buf ++ rest.take n) (rest.drop n)) := by
  unfold clean BacktrackableFile.read
  simp only [List.drop_length, List.take_nil, List.length_nil, Nat.sub_zero,
    List.nil_append]
  by_cases h : n = 0
  · subst h
    simp [clean]
  · simp only [if_neg h]
    simp [clean]

/-- Varint decoding inverts encoding. -/
theorem varint_round (n : Nat) : varintDecode (varintEncode n) = some (n, []) := by
  suffices h : ∀ fuel n, n ≤ fuel → varintDecode (varintEncodeAux fuel n) = some (n, []) by
    exact h n n le_rfl
  intro fuel
  induction fuel with
  | zero =>
    intro n hn
    interval_cases n
    simp [varintEncodeAux, varintDecode]
  | succ fuel ih =>
    intro n hn
    by_cases h : n < 128
    · simp [varintEncodeAux, varintDecode, h]
    · have h128 : 128 ≤ n := le_of_not_lt h
      have hdiv : n / 128 < n := Nat.div_lt_self (by omega) (by omega)
      have hle : n / 128 ≤ fuel := by omega
      simp only [varintEncodeAux, if_neg h, varintDecode]
      have hmod : ¬ (n % 128 + 128 < 128) := by omega
      simp only [if_neg hmod, ih (n / 128) hle]
      have : (n % 128 + 128) % 128 + 128 * (n / 128) = n := by
        have h1 : (n % 128 + 128) % 128 = n % 128 := by omega
        rw [h1]
        exact Nat.mod_add_div n 128
      rw [this]

/-- Parsing an explicitly-declaring header yields its declared length. -/
theorem header_round (n : Nat) :
    Header.parseFromString (headerFor n) = some ⟨n⟩ := by
  simp [Header.parseFromString, headerFor, varint_round]

/-- `read_until_next` with enough fuel: skipping a separator-free prefix `g`
reaches the following separator and reports exactly `g.length` skipped
bytes. -/
theorem readUntilNextAux_skip (g R buf : List Nat) (fuel : Nat)
    (hg : ∀ b ∈ g, b ≠ 0x1e) (hfuel : g.length < fuel) :
    readUntilNextAux 0x1e fuel (clean buf (g ++ 0x1e :: R)) =
      (g.length, false, clean (buf ++ (g ++ [0x1e])) R) := by
  induction g generalizing buf fuel with
  | nil =>
    match fuel, hfuel with
    | fuel + 1, _ =>
      rw [readUntilNextAux]
      rw [show ([] : List Nat) ++ 0x1e :: R = 0x1e :: R from rfl, read_clean]
      simp
  | cons a g ih =>
    match fuel, hfuel with
    | fuel + 1, hfuel =>
      have ha : a ≠ 0x1e := hg a (by simp)
      rw [readUntilNextAux]
      rw [show (a :: g) ++ 0x1e :: R = a :: (g ++ 0x1e :: R) from rfl, read_clean]
      simp only [List.take_succ_cons, List.take_zero, List.drop_succ_cons,
        List.drop_zero]
      rw [if_neg ha]
      have hfuel' : g.length < fuel := by
        simpa using Nat.lt_of_succ_lt_succ hfuel
      rw [ih (buf ++ [a]) fuel (fun b hb => hg b (by simp [hb])) hfuel']
      simp

/-- `read_until_next` on a clean state positioned at garbage-then-separator. -/
theorem read_until_next_skip (g R buf : List Nat)
    (hg : ∀ b ∈ g, b ≠ 0x1e) :
    read_until_next (clean buf (g ++ 0x1e :: R)) 0x1e =
      (g.length, false, clean (buf ++ (g ++ [0x1e])) R) := by
  unfold read_until_next
  apply readUntilNextAux_skip g R buf _ hg
  simp [bfSize, clean]
  omega

/-- `read_until_next` at end of stream reports EOF. -/
theorem read_until_next_eof (buf : List Nat) :
    read_until_next (clean buf []) 0x1e = (0, true, clean buf []) := by
  unfold read_until_next
  rw [show bfSize (clean buf []) + 1 = 1 by simp [bfSize, clean]]
  rw [readUntilNextAux, read_clean]
  simp

/-- Reading one byte from a clean state with a nonempty stream. -/
theorem read_clean_cons (buf : List Nat) (x : Nat) (rest : List Nat) :
    (clean buf (x :: rest)).read 1 = ([x], clean (buf ++ [x]) rest) := by
  rw [read_clean]
  simp

/-- Reading exactly the length of a known prefix from a clean state. -/
theorem read_clean_len (buf l rest : List Nat) :
    (clean buf (l ++ rest)).read l.length = (l, clean (buf ++ l) rest) := by
  rw [read_clean, take_append_len, drop_append_len]

theorem frameBytes_length (body : List Nat) :
    (frameBytes body).length = (headerFor body.length).length + body.length + 3 := by
  simp [frameBytes]
  omega

theorem headerFor_ne_nil (n : Nat) : headerFor n ≠ [] := by
  simp [headerFor]

/-- Reading one record positioned at garbage `g` followed by a frame around
`body`: in strict mode any garbage raises; otherwise the frame is consumed
whole, and the outcome is the decoded record or a `DecodeError`, according to
`decodeBody` on the body bytes. -/
theorem read_one_record_skip (ext : Ext) (v strict ts : Bool)
    (g buf body rest : List Nat) (hg : ∀ b ∈ g, b ≠ 0x1e) :
    read_one_record ext (clean buf (g ++ (frameBytes body ++ rest))) false v strict ts =
      if 0 < g.length ∧ strict then
        ReadOutcome.exn (.valueError "Unexpected character(s) at the start of record")
          (clean (buf ++ (g ++ [0x1e])) ((frameBytes body).drop 1 ++ rest))
      else
        match decodeBody ext ts body with
        | some m =>
          ReadOutcome.ok (some ⟨frameBytes body, ⟨body.length⟩, some m, none⟩)
            (g.length + (frameBytes body).length)
            (clean (buf ++ (g ++ frameBytes body)) rest)
        | none =>
          ReadOutcome.exn .decodeError (clean (buf ++ (g ++ frameBytes body)) rest) := by
  unfold read_one_record
  rw [show g ++ (frameBytes body ++ rest)
      = g ++ 0x1e :: (((headerFor body.length).length ::
          (headerFor body.length ++ 0x1f :: body)) ++ rest) by
    simp [frameBytes]]
  rw [read_until_next_skip _ _ _ hg]
  rw [show ((headerFor body.length).length ::
        (headerFor body.length ++ 0x1f :: body)) ++ rest
      = (headerFor body.length).length ::
        (headerFor body.length ++ (0x1f :: (body ++ rest))) by simp]
  dsimp only
  by_cases hs : 0 < g.length ∧ strict = true
  · rw [if_pos hs, if_pos hs]
    simp [frameBytes]
  · rw [if_neg hs, if_neg hs]
    rw [read_clean_cons]
    dsimp only [List.headD_cons]
    rw [if_neg (by simp)]
    rw [read_clean_len]
    dsimp only
    rw [if_neg (headerFor_ne_nil body.length), header_round]
    dsimp only
    rw [read_clean_cons]
    dsimp only
    rw [read_clean_len]
    dsimp only
    simp only [ne_eq, eq_self_iff_true, not_true, Bool.false_eq_true, if_false]
    cases hdb : decodeBody ext ts body with
    | some m =>
      dsimp only
      rw [frameBytes_length,
        show g.length + ((headerFor body.length).length + body.length + 3)
          = g.length + 1 + 1 + (headerFor body.length).length + 1 + body.length
          by omega]
      simp [clean, frameBytes]
    | none =>
      dsimp only
      simp [clean, frameBytes]

/-- Reading one record positioned directly at a frame whose body decodes. -/
theorem read_one_record_frame (ext : Ext) (v strict ts : Bool)
    (buf body rest : List Nat) (m : Message)
    (hm : decodeBody ext ts body = some m) :
    read_one_record ext (clean buf (frameBytes body ++ rest)) false v strict ts =
      ReadOutcome.ok (some ⟨frameBytes body, ⟨body.length⟩, some m, none⟩)
        (frameBytes body).length (clean (buf ++ frameBytes body) rest) := by
  have h := read_one_record_skip ext v strict ts [] buf body rest (by simp)
  simpa [hm] using h

/-- Reading one record positioned directly at a frame whose body fails to
decode: the whole frame is consumed and `DecodeError` is raised. -/
theorem read_one_record_frame_bad (ext : Ext) (v strict ts : Bool)
    (buf body rest : List Nat)
    (hm : decodeBody ext ts body = none) :
    read_one_record ext (clean buf (frameBytes body ++ rest)) false v strict ts =
      ReadOutcome.exn .decodeError (clean (buf ++ frameBytes body) rest) := by
  have h := read_one_record_skip ext v strict ts [] buf body rest (by simp)
  simpa [hm] using h

/-- Reading at end of stream signals end of stream. -/
theorem read_one_record_eof (ext : Ext) (raw v strict ts : Bool)
    (buf : List Nat) :
    read_one_record ext (clean buf []) raw v strict ts =
      ReadOutcome.ok none 0 (clean buf []) := by
  unfold read_one_record
  rw [read_until_next_eof]
  rfl

/-- One `unpack` iteration on a record return: count, yield, continue. -/
theorem unpackAux_step_some (ext : Ext) (raw v strict bt ts : Bool)
    (fuel : Nat) (f f' : BacktrackableFile) (total s : Nat)
    (r : UnpackedRecord)
    (hr : read_one_record ext f raw v strict ts = .ok (some r) s f') :
    unpackAux ext raw v strict bt ts (fuel + 1) f total =
      ((r, total + s) ::
          (unpackAux ext raw v strict bt ts fuel f' (total + s)).1,
        (unpackAux ext raw v strict bt ts fuel f' (total + s)).2) := by
  simp only [unpackAux, hr]

/-- One `unpack` iteration on an end-of-stream return: break. -/
theorem unpackAux_step_none (ext : Ext) (raw v strict bt ts : Bool)
    (fuel : Nat) (f f' : BacktrackableFile) (total s : Nat)
    (hr : read_one_record ext f raw v strict ts = .ok none s f') :
    unpackAux ext raw v strict bt ts (fuel + 1) f total = ([], .finished) := by
  simp only [unpackAux, hr]

/-- One `unpack` iteration on an exception: re-raise when strict, backtrack
and retry on a `DecodeError` when requested, otherwise end the sequence. -/
theorem unpackAux_step_exn (ext : Ext) (raw v strict bt ts : Bool)
    (fuel : Nat) (f f' : BacktrackableFile) (total : Nat) (e : PyErr)
    (hr : read_one_record ext f raw v strict ts = .exn e f') :
    unpackAux ext raw v strict bt ts (fuel + 1) f total =
      if strict then ([], .raised e)
      else if bt ∧ e = .decodeError then
        unpackAux ext raw v strict bt ts fuel f'.backtrack total
      else ([], .finished) := by
  simp only [unpackAux, hr]

/-- The `unpack` loop over a stream of well-formed frames yields exactly the
expected records and finishes. -/
theorem unpackAux_frames (ext : Ext) (v strict bt ts : Bool)
    (bodies : List (List Nat)) (buf : List Nat) (total : Nat)
    (h : ∀ b ∈ bodies, (decodeBody ext ts b).isSome) :
    unpackAux ext false v strict bt ts (bodies.length + 1)
      (clean buf (streamOfBodies bodies)) total =
      (expectedOut ext ts bodies total, .finished) := by
  induction bodies generalizing buf total with
  | nil =>
    exact unpackAux_step_none ext false v strict bt ts 0 _ _ total 0
      (read_one_record_eof ext false v strict ts buf)
  | cons b bs ih =>
    obtain ⟨m, hm⟩ := Option.isSome_iff_exists.mp (h b (by simp))
    show unpackAux ext false v strict bt ts (bs.length + 1 + 1)
      (clean buf (frameBytes b ++ streamOfBodies bs)) total = _
    rw [unpackAux_step_some ext false v strict bt ts (bs.length + 1) _ _ total
      (frameBytes b).length _ (read_one_record_frame ext v strict ts buf b _ m hm)]
    rw [ih (buf ++ frameBytes b) (total + (frameBytes b).length)
      (fun b' hb' => h b' (by simp [hb']))]
    simp [expectedOut, hm]

theorem expectedOut_length (ext : Ext) (ts : Bool)
    (bodies : List (List Nat)) (total : Nat) :
    (expectedOut ext ts bodies total).length = bodies.length := by
  induction bodies generalizing total with
  | nil => rfl
  | cons b bs ih => simp [expectedOut, ih]

theorem expectedOut_error (ext : Ext) (ts : Bool)
    (bodies : List (List Nat)) (total : Nat) :
    ∀ p ∈ expectedOut ext ts bodies total, p.1.error = none := by
  induction bodies generalizing total with
  | nil => intro p hp; simp [expectedOut] at hp
  | cons b bs ih =>
    intro p hp
    simp only [expectedOut, List.mem_cons] at hp
    rcases hp with hp | hp
    · rw [hp]
    · exact ih _ p hp

theorem expectedOut_last (ext : Ext) (ts : Bool) (bodies : List (List Nat)) :
    ∀ (total : Nat) (p : UnpackedRecord × Nat),
      (expectedOut ext ts bodies total).getLast? = some p →
      p.2 = total + (streamOfBodies bodies).length := by
  induction bodies with
  | nil => intro total p hp; simp [expectedOut] at hp
  | cons b bs ih =>
    intro total p hp
    cases bs with
    | nil =>
      simp only [expectedOut, List.getLast?_singleton, Option.some.injEq] at hp
      rw [← hp]
      simp [streamOfBodies]
    | cons c cs =>
      rw [show expectedOut ext ts (b :: c :: cs) total
          = (⟨frameBytes b, ⟨b.length⟩, decodeBody ext ts b, none⟩,
              total + (frameBytes b).length)
            :: ((⟨frameBytes c, ⟨c.length⟩, decodeBody ext ts c, none⟩,
                  total + (frameBytes b).length + (frameBytes c).length)
                :: expectedOut ext ts cs
                  (total + (frameBytes b).length + (frameBytes c).length))
        from rfl, List.getLast?_cons_cons] at hp
      have hres := ih (total + (frameBytes b).length) p hp
      rw [hres]
      simp only [streamOfBodies, List.length_append]
      omega

/-- A byte list without record separators contains no separator to find. -/
theorem findSep_none (l : List Nat) (i : Nat) (h : ∀ b ∈ l, b ≠ 0x1e) :
    findSep l i = none := by
  induction l generalizing i with
  | nil => rfl
  | cons a l ih =>
    rw [findSep, if_neg (h a (by simp))]
    exact ih (i + 1) (fun b hb => h b (by simp [hb]))

end Lemmas

/-- C1: for every well-formed stream of `N` frames — each one
`SEP(0x1E)`, a one-byte header length, a header explicitly declaring its body
length, `USEP(0x1F)`, and a body of exactly that length which decodes as a
message — `unpack` yields exactly `N` records, none carrying an error, and
the cumulative byte count paired with the last yielded record equals the
total byte length of the stream. -/
theorem claim1_roundtrip (ext : Ext) (v strict bt ts : Bool)
    (bodies : List (List Nat))
    (hwf : ∀ b ∈ bodies, (decodeBody ext ts b).isSome)
    (hhl : ∀ b ∈ bodies, (headerFor b.length).length ≤ 255) :
    (unpack ext (bodies.length + 1)
        (BacktrackableFile.mk0 (streamOfBodies bodies))
        false v strict bt ts).2 = .finished ∧
    (unpack ext (bodies.length + 1)
        (BacktrackableFile.mk0 (streamOfBodies bodies))
        false v strict bt ts).1.length = bodies.length ∧
    (∀ p ∈ (unpack ext (bodies.length + 1)
        (BacktrackableFile.mk0 (streamOfBodies bodies))
        false v strict bt ts).1, p.1.error = none) ∧
    (∀ p, (unpack ext (bodies.length + 1)
        (BacktrackableFile.mk0 (streamOfBodies bodies))
        false v strict bt ts).1.getLast? = some p →
      p.2 = (streamOfBodies bodies).length) := by
  have hmk : BacktrackableFile.mk0 (streamOfBodies bodies)
      = clean [] (streamOfBodies bodies) := rfl
  unfold unpack
  rw [hmk, unpackAux_frames ext v strict bt ts bodies [] 0 hwf]
  refine ⟨rfl, expectedOut_length ext ts bodies 0,
    expectedOut_error ext ts bodies 0, fun p hp => ?_⟩
  have h := expectedOut_last ext ts bodies 0 p hp
  simpa using h

/-- Witness: a one-frame stream with body `[7]` (which `extTest` decodes)
round-trips: one record, no error. -/
theorem claim1_roundtrip_witness :
    (unpack extTest 2 (BacktrackableFile.mk0 (streamOfBodies [[7]]))
        false false false false true).1.length = 1 ∧
    (∀ p ∈ (unpack extTest 2 (BacktrackableFile.mk0 (streamOfBodies [[7]]))
        false false false false true).1, p.1.error = none) := by
  have h := claim1_roundtrip extTest false false false true [[7]]
    (by decide) (by decide)
  exact ⟨h.2.1, h.2.2.1⟩

/-- Reading a frame whose unit separator byte is wrong, in non-strict mode:
the record is returned with the error message set and no message, and the
body bytes are not consumed. -/
theorem read_one_record_usep (ext : Ext) (v ts : Bool)
    (buf hdr rest : List Nat) (x : Nat) (h : Header)
    (hp : Header.parseFromString hdr = some h)
    (hne : hdr ≠ [])
    (hx : x ≠ 0x1f) :
    read_one_record ext (clean buf (0x1e :: hdr.length :: (hdr ++ x :: rest)))
        false v false ts
      = ReadOutcome.ok (some ⟨0x1e :: hdr.length :: hdr, h, none,
          some (usepError (hdr.length + 3) x)⟩)
        (hdr.length + 3)
        (clean (buf ++ 0x1e :: hdr.length :: (hdr ++ [x])) rest) := by
  unfold read_one_record
  rw [show (0x1e : Nat) :: hdr.length :: (hdr ++ x :: rest)
      = [] ++ 0x1e :: (hdr.length :: (hdr ++ x :: rest)) from rfl,
    read_until_next_skip [] _ buf (by simp)]
  dsimp only
  rw [read_clean_cons]
  dsimp only [List.headD_cons]
  rw [read_clean_len]
  dsimp only
  rw [if_neg hne, hp]
  dsimp only
  rw [read_clean_cons]
  dsimp only
  rw [if_pos hx]
  rw [show ([] : List Nat).length + 1 + 1 + hdr.length + 1 = hdr.length + 3 by
    simp only [List.length_nil]
    omega]
  simp [clean]

/-- Reading a frame whose stream ends right after the header bytes: the read
of the unit separator returns an empty string and `ord(unit_separator[0])`
raises `IndexError`, in every mode. -/
theorem read_one_record_truncated (ext : Ext) (v strict ts : Bool)
    (buf hdr : List Nat) (h : Header)
    (hp : Header.parseFromString hdr = some h)
    (hne : hdr ≠ []) :
    read_one_record ext (clean buf (0x1e :: hdr.length :: hdr)) false v strict ts
      = ReadOutcome.exn .indexError
          (clean (buf ++ 0x1e :: hdr.length :: hdr) []) := by
  unfold read_one_record
  rw [show (0x1e : Nat) :: hdr.length :: hdr
      = [] ++ 0x1e :: (hdr.length :: (hdr ++ [])) from by simp,
    read_until_next_skip [] _ buf (by simp)]
  dsimp only
  rw [read_clean_cons]
  dsimp only [List.headD_cons]
  rw [read_clean_len]
  dsimp only
  rw [if_neg hne, hp]
  dsimp only
  rw [show (clean (buf ++ ([] ++ [0x1e]) ++ [hdr.length] ++ hdr) []).read 1
      = ([], clean (buf ++ ([] ++ [0x1e]) ++ [hdr.length] ++ hdr) []) from by
    rw [read_clean]
    simp]
  dsimp only
  simp [clean]

/-- C2 counterexample: with `strict=False` and `backtrack=False`, a message
body that fails to decode terminates the lazy sequence: a stream of one
corrupt frame followed by one well-formed frame yields nothing at all, even
though the second frame's body decodes. -/
theorem claim2_counterexample :
    unpack extTest 3
        (BacktrackableFile.mk0 (frameBytes [5] ++ frameBytes [7]))
        false false false false true = ([], .finished) ∧
    (decodeBody extTest true [7]).isSome = true := by
  constructor
  · rfl
  · rfl

/-- C2 (amended): with `strict=False`, a message-body decode failure is
handled as follows: with `backtrack` set (and the failure being a protobuf
decode error) the unpacker discards buffered bytes back past the failed
record's separator and retries, yielding the remaining well-formed frames;
WITHOUT `backtrack` the failure ends the lazy sequence — subsequent frames
are not read. -/
theorem claim2_amended (ext : Ext) (v ts : Bool)
    (badBody : List Nat) (goods : List (List Nat))
    (hbad : decodeBody ext ts badBody = none)
    (hns : ∀ b ∈ (frameBytes badBody).drop 1, b ≠ 0x1e)
    (hg : ∀ b ∈ goods, (decodeBody ext ts b).isSome) :
    unpack ext (goods.length + 2)
      (BacktrackableFile.mk0 (frameBytes badBody ++ streamOfBodies goods))
      false v false true ts
      = (expectedOut ext ts goods 0, .finished) ∧
    unpack ext (goods.length + 2)
      (BacktrackableFile.mk0 (frameBytes badBody ++ streamOfBodies goods))
      false v false false ts
      = ([], .finished) := by
  have hmk : BacktrackableFile.mk0 (frameBytes badBody ++ streamOfBodies goods)
      = clean [] (frameBytes badBody ++ streamOfBodies goods) := rfl
  have hread := read_one_record_frame_bad ext v false ts [] badBody
    (streamOfBodies goods) hbad
  have hbt : (clean ([] ++ frameBytes badBody) (streamOfBodies goods)).backtrack
      = clean [] (streamOfBodies goods) := by
    simp only [List.nil_append]
    unfold BacktrackableFile.backtrack
    rw [show (clean (frameBytes badBody) (streamOfBodies goods)).buf
        = frameBytes badBody from rfl, findSep_none _ _ hns]
    rfl
  constructor
  · unfold unpack
    rw [hmk, show goods.length + 2 = (goods.length + 1) + 1 from rfl,
      unpackAux_step_exn ext false v false true ts (goods.length + 1) _ _ 0
        .decodeError hread]
    rw [if_neg (by simp), if_pos (by simp)]
    rw [hbt, unpackAux_frames ext v false true ts goods [] 0 hg]
  · unfold unpack
    rw [hmk, show goods.length + 2 = (goods.length + 1) + 1 from rfl,
      unpackAux_step_exn ext false v false false ts (goods.length + 1) _ _ 0
        .decodeError hread]
    rw [if_neg (by simp), if_neg (by simp)]

/-- Witness: corrupt frame (body `[5]`) followed by a good frame (body `[7]`)
with `backtrack=True` recovers and yields exactly the good frame. -/
theorem claim2_amended_witness :
    unpack extTest 3
      (BacktrackableFile.mk0 (frameBytes [5] ++ streamOfBodies [[7]]))
      false false false true true
      = (expectedOut extTest true [[7]] 0, .finished) :=
  (claim2_amended extTest false true [5] [[7]] (by decide) (by decide)
    (by decide)).1

/-- C4: for a stream with `K` garbage (non-0x1E) bytes before a valid
separator and a well-formed frame, the frame reader reports exactly `K`
skipped bytes (and no EOF), in non-strict mode still returns the following
frame counting the `K` bytes, and in strict mode raises a framing
`ValueError` as soon as `K > 0`. -/
theorem claim4_resync (ext : Ext) (v ts : Bool)
    (g buf body rest : List Nat) (m : Message)
    (hg : ∀ b ∈ g, b ≠ 0x1e)
    (hm : decodeBody ext ts body = some m) :
    (read_until_next (clean buf (g ++ (frameBytes body ++ rest))) 0x1e).1
      = g.length ∧
    (read_until_next (clean buf (g ++ (frameBytes body ++ rest))) 0x1e).2.1
      = false ∧
    read_one_record ext (clean buf (g ++ (frameBytes body ++ rest)))
        false v false ts
      = ReadOutcome.ok (some ⟨frameBytes body, ⟨body.length⟩, some m, none⟩)
          (g.length + (frameBytes body).length)
          (clean (buf ++ (g ++ frameBytes body)) rest) ∧
    (0 < g.length →
      read_one_record ext (clean buf (g ++ (frameBytes body ++ rest)))
          false v true ts
        = ReadOutcome.exn
            (.valueError "Unexpected character(s) at the start of record")
            (clean (buf ++ (g ++ [0x1e])) ((frameBytes body).drop 1 ++ rest))) := by
  have hstream : g ++ (frameBytes body ++ rest)
      = g ++ 0x1e :: ((frameBytes body).drop 1 ++ rest) := by
    simp [frameBytes]
  refine ⟨?_, ?_, ?_, ?_⟩
  · rw [hstream, read_until_next_skip _ _ _ hg]
  · rw [hstream, read_until_next_skip _ _ _ hg]
  · have h := read_one_record_skip ext v false ts g buf body rest hg
    simpa [hm] using h
  · intro hgl
    have h := read_one_record_skip ext v true ts g buf body rest hg
    rw [if_pos ⟨hgl, rfl⟩] at h
    exact h

/-- Witness: two garbage bytes before a valid frame are reported as exactly
two skipped bytes. -/
theorem claim4_resync_witness :
    (read_until_next (clean [] ([1, 2] ++ (frameBytes [7] ++ []))) 0x1e).1
      = 2 := by
  have h := claim4_resync extTest false true [1, 2] [] [7] [] msgTest
    (by decide) (by decide)
  exact h.1

/-- C3 counterexample: a frame with a unit-separator mismatch (non-strict
mode) IS yielded by `unpack` — the output holds exactly one pair whose record
carries an error, has no message, and counts 5 bytes — contradicting "yields
nothing for that frame". -/
theorem claim3_counterexample :
    ((unpack extTest 2 (BacktrackableFile.mk0 [0x1e, 2, 8, 0, 99])
        false false false false true).1.map
      (fun p => (p.1.error.isSome, p.1.message.isSome, p.2)))
      = [(true, false, 5)] := by
  rfl

/-- C3 (amended): for a frame the reader returns with an error indicator and
no message (unit-separator mismatch, non-strict), `unpack` counts the frame's
bytes in the cumulative byte total and yields the frame, with its error set
and no message: the erroneous frame appears in the output sequence. -/
theorem claim3_amended (ext : Ext) (v bt ts : Bool) (fuel : Nat)
    (buf hdr rest : List Nat) (x : Nat) (h : Header) (total : Nat)
    (hp : Header.parseFromString hdr = some h)
    (hne : hdr ≠ [])
    (hx : x ≠ 0x1f) :
    read_one_record ext (clean buf (0x1e :: hdr.length :: (hdr ++ x :: rest)))
        false v false ts
      = ReadOutcome.ok (some ⟨0x1e :: hdr.length :: hdr, h, none,
          some (usepError (hdr.length + 3) x)⟩)
        (hdr.length + 3)
        (clean (buf ++ 0x1e :: hdr.length :: (hdr ++ [x])) rest) ∧
    (unpackAux ext false v false bt ts (fuel + 1)
        (clean buf (0x1e :: hdr.length :: (hdr ++ x :: rest))) total).1.head?
      = some (⟨0x1e :: hdr.length :: hdr, h, none,
          some (usepError (hdr.length + 3) x)⟩, total + (hdr.length + 3)) := by
  have hr := read_one_record_usep ext v ts buf hdr rest x h hp hne hx
  refine ⟨hr, ?_⟩
  rw [unpackAux_step_some ext false v false bt ts fuel _ _ total _ _ hr]
  rfl

/-- Witness for C3 (amended): header `[8,0]`, separator byte 99 instead of
0x1F — the error frame is the first yielded pair, counted at 5 bytes. -/
theorem claim3_amended_witness :
    (unpackAux extTest false false false false true 2
        (clean [] (0x1e :: [8, 0].length :: ([8, 0] ++ 99 :: []))) 0).1.head?
      = some (⟨0x1e :: [8, 0].length :: [8, 0], ⟨0⟩, none,
          some (usepError ([8, 0].length + 3) 99)⟩, 0 + ([8, 0].length + 3)) :=
  (claim3_amended extTest false false true 1 [] [8, 0] [] 99 ⟨0⟩ 0 (by decide)
    (by decide) (by decide)).2

/-- C9: the code bug at the empty-header edge case.  A frame laid out as
`SEP(0x1E)`, header length 0, `USEP(0x1F)` should (per the spec) parse as a
frame with `message_length` defaulting to 0; instead `read(0)` returns an
empty string, which `read_one_record`'s end-of-stream guard
(`if header_raw == ''`) mistakes for EOF: it returns `None` after 2 bytes,
never consuming the unit separator, and `unpack` ends the sequence. -/
theorem claim9_empty_header (ext : Ext) (raw v strict bt ts : Bool) :
    read_one_record ext (BacktrackableFile.mk0 [0x1e, 0, 0x1f]) raw v strict ts
      = ReadOutcome.ok none 2 ⟨[0x1e, 0], 2, [0x1f]⟩ ∧
    unpack ext 2 (BacktrackableFile.mk0 [0x1e, 0, 0x1f]) raw v strict bt ts
      = ([], .finished) := by
  constructor
  · rfl
  · rfl

/-- C10: for a stream that ends exactly after a frame's header bytes,
`read_one_record` indexes into the empty read and raises `IndexError` (not a
clean EOF nor the documented framing `ValueError`); in strict mode `unpack`
re-raises the `IndexError`, and in non-strict mode (any `backtrack` value,
since an `IndexError` is not a `DecodeError`) the sequence simply ends. -/
theorem claim10_truncated (ext : Ext) (v bt ts : Bool) (fuel : Nat)
    (buf hdr : List Nat) (h : Header)
    (hp : Header.parseFromString hdr = some h)
    (hne : hdr ≠ []) :
    read_one_record ext (clean buf (0x1e :: hdr.length :: hdr)) false v true ts
      = ReadOutcome.exn .indexError
          (clean (buf ++ 0x1e :: hdr.length :: hdr) []) ∧
    unpackAux ext false v true bt ts (fuel + 1)
        (clean buf (0x1e :: hdr.length :: hdr)) 0
      = ([], .raised .indexError) ∧
    unpackAux ext false v false bt ts (fuel + 1)
        (clean buf (0x1e :: hdr.length :: hdr)) 0
      = ([], .finished) := by
  have h1 := read_one_record_truncated ext v true ts buf hdr h hp hne
  have h2 := read_one_record_truncated ext v false ts buf hdr h hp hne
  refine ⟨h1, ?_, ?_⟩
  · rw [unpackAux_step_exn ext false v true bt ts fuel _ _ 0 .indexError h1]
    rfl
  · rw [unpackAux_step_exn ext false v false bt ts fuel _ _ 0 .indexError h2]
    rw [if_neg (by simp), if_neg (by simp)]

/-- Witness for C10: the concrete stream `1E 02 08 00` (separator, header
length 2, header declaring length 0) ends after the header; strict `unpack`
raises `IndexError`. -/
theorem claim10_truncated_witness :
    unpackAux extTest false false true false true 1
        (clean [] (0x1e :: [8, 0].length :: [8, 0])) 0
      = ([], .raised .indexError) :=
  (claim10_truncated extTest false false true 0 [] [8, 0] ⟨0⟩ (by decide)
    (by decide)).2.1

/-- C5: the payload-decompression policy of `read_one_record`: with
`try_snappy=False` the body bytes go to the message decoder unchanged; with
`try_snappy=True`, a successful snappy decompression whose output parses as a
message is used, and any failure of that attempt (decompression failure, or
parse failure of the decompressed bytes) falls back silently to parsing the
original body bytes. -/
theorem claim5_decompress (ext : Ext) (body dec : List Nat) :
    decodeBody ext false body = ext.parseMessage body ∧
    (ext.snappyDecompress body = some dec →
      ∀ m, ext.parseMessage dec = some m →
        decodeBody ext true body = some m) ∧
    (ext.snappyDecompress body = none →
      decodeBody ext true body = ext.parseMessage body) ∧
    (ext.snappyDecompress body = some dec → ext.parseMessage dec = none →
      decodeBody ext true body = ext.parseMessage body) := by
  refine ⟨rfl, ?_, ?_, ?_⟩
  · intro hs m hm
    simp [decodeBody, hs, hm]
  · intro hs
    simp [decodeBody, hs]
  · intro hs hm
    simp [decodeBody, hs, hm]

/-- Witness for C5: `[9]` is the snappy form of `[7]`, which parses; `[7]`
parses raw. -/
theorem claim5_decompress_witness :
    decodeBody extTest true [9] = some msgTest ∧
    decodeBody extTest false [7] = some msgTest := by
  constructor
  · exact (claim5_decompress extTest [9] [7]).2.1 (by rfl) msgTest (by rfl)
  · rw [(claim5_decompress extTest [7] []).1]
    rfl

/-- C6 counterexample: a lazy value wrapping a raw string that starts with a
brace but does not parse as JSON re-executes the JSON parse on every read:
after two accesses the parse counter is 2, not 1. -/
theorem claim6_counterexample :
    lazyjson extTest (.s "\x7bbad") = .ok (.vlazy "\x7bbad" true none 0) ∧
    lazyCount (lazyAccessN extTest 2 (.vlazy "\x7bbad" true none 0)).2 = 2 := by
  constructor
  · rfl
  · rfl

/-- C6 (amended): for every lazy wrapper returned by `_lazyjson` (a raw
string starting with a brace or bracket), PROVIDED the raw string parses as
JSON, any number of reads returns identical results and the parse executes
exactly once — on the first access — and is cached; a value with no accesses
is never parsed.  (When the parse fails, it re-executes on every access, as
the counterexample shows.) -/
theorem claim6_amended (ext : Ext) (content : String) (dflt : Bool)
    (j : JValue)
    (hw : lazyjson ext (.s content) = .ok (.vlazy content dflt none 0))
    (hj : ext.jsonLoads content = some j) :
    ∀ n, (∀ res ∈ (lazyAccessN ext n (.vlazy content dflt none 0)).1,
        res = .ok (jToR j)) ∧
      lazyCount (lazyAccessN ext n (.vlazy content dflt none 0)).2
        = (if n = 0 then 0 else 1) := by
  have hcached : ∀ (k m : Nat) (r : RVal),
      lazyAccessN ext k (.vlazy content dflt (some r) m)
        = (List.replicate k (.ok r), .vlazy content dflt (some r) m) := by
    intro k
    induction k with
    | zero => intro m r; rfl
    | succ k ih =>
      intro m r
      simp [lazyAccessN, lazyAccess, ih, List.replicate_succ]
  intro n
  cases n with
  | zero =>
    exact ⟨by intro res h; simp [lazyAccessN] at h, rfl⟩
  | succ n =>
    constructor
    · intro res h
      simp only [lazyAccessN, lazyAccess, hj, hcached] at h
      simp only [List.mem_cons, List.mem_replicate] at h
      rcases h with h | ⟨-, h⟩ <;> exact h
    · simp [lazyAccessN, lazyAccess, hj, hcached, lazyCount]

/-- Witness for C6 (amended): two reads of a wrapper over a well-formed JSON
object both return the parsed object and the parse count is 1. -/
theorem claim6_amended_witness :
    (∀ res ∈ (lazyAccessN extTest 2
        (.vlazy "\x7b\x22x\x22:1\x7d" true none 0)).1,
      res = .ok (jToR (.jobj [("x", .jint 1)]))) ∧
    lazyCount (lazyAccessN extTest 2
        (.vlazy "\x7b\x22x\x22:1\x7d" true none 0)).2
      = (if 2 = 0 then 0 else 1) :=
  claim6_amended extTest "\x7b\x22x\x22:1\x7d" true (.jobj [("x", .jint 1)])
    (by rfl) (by rfl) 2

/-- C7: a side-field named `a.b.c` with first value `"5"` produces
`record["a"]["b"]["c"] == 5` (eagerly integer-inferred), and a side-field
named `a.b` with first value `'\x7b"x":1\x7d'` produces at
`record["a"]["b"]` a lazily-parsed mapping whose first access parses to
`\x7b"x": 1\x7d`. -/
theorem claim7_dotted (ext : Ext) (t : Int) (ty hn : String)
    (hj : ext.jsonLoads "\x7b\x22x\x22:1\x7d" = some (.jobj [("x", .jint 1)])) :
    (∃ r, Heka.parse_heka_record ext
        ⟨[], ⟨0⟩, some ⟨t, ty, hn, "", [⟨"a.b.c", 0, ["5"], [], [], [], []⟩]⟩,
          none⟩ = .ok r ∧
      dig r ["a", "b", "c"] = some (.vint 5)) ∧
    (∃ r, Heka.parse_heka_record ext
        ⟨[], ⟨0⟩, some ⟨t, ty, hn, "",
          [⟨"a.b", 0, ["\x7b\x22x\x22:1\x7d"], [], [], [], []⟩]⟩, none⟩
        = .ok r ∧
      dig r ["a", "b"] = some (.vlazy "\x7b\x22x\x22:1\x7d" true none 0) ∧
      lazyAccess ext (.vlazy "\x7b\x22x\x22:1\x7d" true none 0)
        = (.ok (.vdict [("x", .vint 1)]),
          .vlazy "\x7b\x22x\x22:1\x7d" true (some (.vdict [("x", .vint 1)])) 1)) := by
  refine ⟨⟨_, rfl, rfl⟩, ⟨_, rfl, rfl, ?_⟩⟩
  simp [lazyAccess, hj, jToR, jToRPairs, jToRList]

/-- Witness for C7: concrete externals, `record["a"]["b"]["c"] == 5`. -/
theorem claim7_dotted_witness :
    ∃ r, Heka.parse_heka_record extTest
        ⟨[], ⟨0⟩, some ⟨0, "t", "h", "", [⟨"a.b.c", 0, ["5"], [], [], [], []⟩]⟩,
          none⟩ = .ok r ∧
      dig r ["a", "b", "c"] = some (.vint 5) :=
  (claim7_dotted extTest 0 "t" "h" (by rfl)).1

/-- A one-field record parse is the no-field parse followed by the per-field
step (`heka/message_parser.py` variant). -/
theorem parse_heka_single (ext : Ext) (t : Int) (ty hn payload : String)
    (f : Field) :
    Heka.parse_heka_record ext ⟨[], ⟨0⟩, some ⟨t, ty, hn, payload, [f]⟩, none⟩
      = (Heka.parse_heka_record ext
            ⟨[], ⟨0⟩, some ⟨t, ty, hn, payload, []⟩, none⟩).bind
          (fun r => Heka.hekaField ext r f) := by
  unfold Heka.parse_heka_record
  dsimp only
  cases hb : payloadBase ext payload with
  | error e => rfl
  | ok r0 =>
    simp only [List.foldlM_cons, List.foldlM_nil]
    show Heka.hekaField ext _ f >>= pure = _
    rw [bind_pure]
    rfl

/-- A one-field record parse is the no-field parse followed by the per-field
step (`heka_message_parser.py` variant). -/
theorem parse_heka_top_single (ext : Ext) (t : Int) (ty hn payload : String)
    (f : Field) :
    HekaTop.parse_heka_record ext ⟨[], ⟨0⟩, some ⟨t, ty, hn, payload, [f]⟩, none⟩
      = (HekaTop.parse_heka_record ext
            ⟨[], ⟨0⟩, some ⟨t, ty, hn, payload, []⟩, none⟩).bind
          (fun r => HekaTop.hekaField ext r f) := by
  unfold HekaTop.parse_heka_record
  dsimp only
  cases hb : payloadBase ext payload with
  | error e => rfl
  | ok r0 =>
    simp only [List.foldlM_cons, List.foldlM_nil]
    show HekaTop.hekaField ext _ f >>= pure = _
    rw [bind_pure]
    rfl

/-- C8 counterexample: in `heka_message_parser.py`, a bytes-typed field named
`submission.x` — not literally named `submission` — is NOT dropped: its
decoded JSON keys are merged into the record's top level
(`record["k"] == 1`). -/
theorem claim8_counterexample :
    ∃ r, HekaTop.parse_heka_record extTest
        ⟨[], ⟨0⟩, some ⟨0, "t", "h", "",
          [⟨"submission.x", 1, [], [[1, 2]], [], [], []⟩]⟩, none⟩ = .ok r ∧
      dictGet r "k" = some (.vint 1) := by
  refine ⟨_, rfl, rfl⟩

/-- C8 (amended): every bytes-typed side-field (value_type 1) is dropped from
the Decoded Record by the `heka/message_parser.py` projector unconditionally;
the `heka_message_parser.py` projector also drops it unless the FIRST
dot-segment of its name is `submission`, in which case `value_bytes[0]` is
UTF-8-decoded, JSON-parsed, and its top-level keys are merged directly into
the record's top level. -/
theorem claim8_amended (ext : Ext) (t : Int) (ty hn payload : String)
    (f : Field) (hb : f.value_type = 1) :
    Heka.parse_heka_record ext ⟨[], ⟨0⟩, some ⟨t, ty, hn, payload, [f]⟩, none⟩
      = Heka.parse_heka_record ext
          ⟨[], ⟨0⟩, some ⟨t, ty, hn, payload, []⟩, none⟩ ∧
    ((pySplitDot f.name).headD "" ≠ "submission" →
      HekaTop.parse_heka_record ext
          ⟨[], ⟨0⟩, some ⟨t, ty, hn, payload, [f]⟩, none⟩
        = HekaTop.parse_heka_record ext
            ⟨[], ⟨0⟩, some ⟨t, ty, hn, payload, []⟩, none⟩) ∧
    (∀ b bs s kvs, (pySplitDot f.name).headD "" = "submission" →
      f.value_bytes = b :: bs → ext.utf8Decode b = some s →
      ext.jsonLoads s = some (.jobj kvs) →
      HekaTop.parse_heka_record ext
          ⟨[], ⟨0⟩, some ⟨t, ty, hn, payload, [f]⟩, none⟩
        = (HekaTop.parse_heka_record ext
            ⟨[], ⟨0⟩, some ⟨t, ty, hn, payload, []⟩, none⟩).map
          (fun r => dictUpdate r (jToRPairs kvs))) := by
  refine ⟨?_, ?_, ?_⟩
  · rw [parse_heka_single]
    cases hp : Heka.parse_heka_record ext
        ⟨[], ⟨0⟩, some ⟨t, ty, hn, payload, []⟩, none⟩ with
    | error e => rfl
    | ok r =>
      show Heka.hekaField ext r f = Except.ok r
      unfold Heka.hekaField
      rw [if_pos hb]
  · intro hsub
    rw [parse_heka_top_single]
    cases hp : HekaTop.parse_heka_record ext
        ⟨[], ⟨0⟩, some ⟨t, ty, hn, payload, []⟩, none⟩ with
    | error e => rfl
    | ok r =>
      show HekaTop.hekaField ext r f = Except.ok r
      unfold HekaTop.hekaField
      rw [if_pos hb, if_neg hsub]
  · intro b bs s kvs hsub hbytes hutf hkv
    rw [parse_heka_top_single]
    cases hp : HekaTop.parse_heka_record ext
        ⟨[], ⟨0⟩, some ⟨t, ty, hn, payload, []⟩, none⟩ with
    | error e => rfl
    | ok r =>
      show HekaTop.hekaField ext r f
        = Except.ok (dictUpdate r (jToRPairs kvs))
      unfold HekaTop.hekaField
      rw [if_pos hb, if_pos hsub, hbytes]
      dsimp only
      rw [hutf]
      dsimp only
      rw [hkv]

/-- Witness for C8 (amended): a bytes field literally named `submission`
merges its JSON keys into the top level. -/
theorem claim8_amended_witness :
    HekaTop.parse_heka_record extTest
        ⟨[], ⟨0⟩, some ⟨0, "t", "h", "",
          [⟨"submission", 1, [], [[1, 2]], [], [], []⟩]⟩, none⟩
      = (HekaTop.parse_heka_record extTest
          ⟨[], ⟨0⟩, some ⟨0, "t", "h", "", []⟩, none⟩).map
        (fun r => dictUpdate r (jToRPairs [("k", .jint 1)])) :=
  (claim8_amended extTest 0 "t" "h" ""
      ⟨"submission", 1, [], [[1, 2]], [], [], []⟩ rfl).2.2
    [1, 2] [] "\x7b\x22k\x22:1\x7d" [("k", .jint 1)] (by rfl) (by rfl)
    (by rfl) (by rfl)

end Moz
